import Mathlib

/-!
Verification of the rr (record/replay) gdbserial backend of the delve
debugger: redirect-handle resolution (`openRedirects`), availability
preflight (`checkRRAvailable`), the gdb-command-line scraper
(`rrParseGdbCommand` / `rrStderrParser`), trace-directory cleanup
(`safeRemoveAll`) and the composite `RecordAndReplay` operation.

Go strings are embedded as `List Char`; the OS surface (file system,
executable lookup, pseudo-files) is embedded as explicit oracles passed
to each operation; fallible Go calls return `Option`/`Except`.
-/

namespace RRBackend

/-- The single-quote character (written via its code point). -/
def rrQuote : Char := Char.ofNat 39

/-- ASCII whitespace, standing in for Go `unicode.IsSpace` on the ASCII
range (the diagnostic lines scraped here are ASCII). -/
def isSpaceChar (c : Char) : Bool :=
  c = ' ' || c = Char.ofNat 9 || c = Char.ofNat 10 || c = Char.ofNat 11 ||
  c = Char.ofNat 12 || c = Char.ofNat 13

/-- Tokenizer state: outside a field, inside a field, inside a quoted span. -/
inductive QState where
  | inSpace : QState
  | inField : QState
  | inQuote : QState
deriving DecidableEq

/-- Modelled from the spec: `config.SplitQuotedFields` is not part of the
excerpt; §4.4 describes it as "shell-like tokenization that treats
single-quoted spans as one field (embedded spaces preserved)".  We model it
as the standard three-state machine: whitespace separates fields, a quote
character toggles a quoting state in which whitespace is kept in the
current field, and the quote characters themselves are dropped.
`buf` is the field being accumulated, `acc` the fields already produced. -/
def splitQFAux (q : Char) : List Char → QState → List Char → List (List Char) → List (List Char)
  | [], _, buf, acc => if buf = [] then acc else acc ++ [buf]
  | c :: cs, QState.inSpace, buf, acc =>
    if c = q then splitQFAux q cs QState.inQuote buf acc
    else if isSpaceChar c then splitQFAux q cs QState.inSpace buf acc
    else splitQFAux q cs QState.inField (buf ++ [c]) acc
  | c :: cs, QState.inField, buf, acc =>
    if c = q then splitQFAux q cs QState.inQuote buf acc
    else if isSpaceChar c then splitQFAux q cs QState.inSpace [] (acc ++ [buf])
    else splitQFAux q cs QState.inField (buf ++ [c]) acc
  | c :: cs, QState.inQuote, buf, acc =>
    if c = q then splitQFAux q cs QState.inField buf acc
    else splitQFAux q cs QState.inQuote (buf ++ [c]) acc

/-- Modelled from the spec (see `splitQFAux`): splits a line into fields,
treating spans delimited by `q` as part of a single field. -/
def splitQuotedFields (s : List Char) (q : Char) : List (List Char) :=
  splitQFAux q s QState.inSpace [] []

/-- `targetCmd` constant from the source: the fixed prefix of the `-ex`
argument that carries the port. -/
def targetCmd : List Char := "target extended-remote ".data

/-- `rrGdbCommandPrefix` constant from the source. -/
def rrGdbCommandPrefix : List Char := "  gdb ".data

/-- The field-scanning loop of `rrParseGdbCommand` (the `for i` loop over
`fields`), with the current value of the `port` variable threaded through.
`-ex` with no following field aborts with the malformed-handshake reason;
a following field starting with `targetCmd` sets `port` to the remainder
and skips the argument (`i++`); a non-matching argument hits `continue`,
which does NOT skip the argument, so scanning resumes at the argument
field itself; `-l` skips its argument; other fields are ignored. -/
def rrScan : List (List Char) → List Char → Except (List Char) (List Char)
  | [], port => Except.ok port
  | f :: rest, port =>
    if f = "-ex".data then
      match rest with
      | [] => Except.error "-ex not followed by an argument".data
      | arg :: rest2 =>
        if targetCmd.isPrefixOf arg then
          rrScan rest2 (arg.drop targetCmd.length)
        else
          rrScan (arg :: rest2) port
    else if f = "-l".data then
      match rest with
      | [] => Except.ok port
      | _ :: rest2 => rrScan rest2 port
    else rrScan rest port

/-- `ErrMalformedRRGdbCommand` from the source: carries the offending raw
line and a reason. -/
structure ErrMalformedRRGdbCommand where
  line : List Char
  reason : List Char
deriving DecidableEq

/-- `rrInit` from the source: the connection descriptor delivered over the
init channel. -/
structure rrInit where
  port : List Char
  exe : List Char
  err : Option ErrMalformedRRGdbCommand
deriving DecidableEq

/-- `rrParseGdbCommand` from the source: splits the line on single quotes,
runs the scanning loop, and on success takes `fields[len(fields)-1]` as
the executable (embedded as `getLast?` with default `[]`; the in-bounds
claim about this access is proved separately). -/
def rrParseGdbCommand (line : List Char) : rrInit :=
  let fields := splitQuotedFields line rrQuote
  match rrScan fields [] with
  | Except.error reason => { port := [], exe := [], err := some ⟨line, reason⟩ }
  | Except.ok port =>
    if port = [] then
      { port := [], exe := [], err := some ⟨line, "could not find -ex argument".data⟩ }
    else
      { port := port, exe := (fields.getLast?).getD [], err := none }

/-- The per-line dispatch of `rrStderrParser` (source lines 247–250): a
line starting with `rrGdbCommandPrefix` is stripped of that prefix and
handed to `rrParseGdbCommand`; any other line is not parsed. -/
def rrStderrParserStep (line : List Char) : Option rrInit :=
  if rrGdbCommandPrefix.isPrefixOf line then
    some (rrParseGdbCommand (line.drop rrGdbCommandPrefix.length))
  else none

/-- Follows the spec's words (§4.4), for a refinement comparison with
`rrScan`: "the flag's argument field is always consumed (skip one extra
position)" — i.e. after a non-matching `-ex` argument the scan resumes
AFTER the argument field instead of at it. -/
def rrScanSpec : List (List Char) → List Char → Except (List Char) (List Char)
  | [], port => Except.ok port
  | f :: rest, port =>
    if f = "-ex".data then
      match rest with
      | [] => Except.error "-ex not followed by an argument".data
      | arg :: rest2 =>
        if targetCmd.isPrefixOf arg then
          rrScanSpec rest2 (arg.drop targetCmd.length)
        else
          rrScanSpec rest2 port
    else if f = "-l".data then
      match rest with
      | [] => Except.ok port
      | _ :: rest2 => rrScanSpec rest2 port
    else rrScanSpec rest port

/-! ## Redirect resolution (`openRedirects`) -/

/-- Handle standing in for the process's own `os.Stdin`. -/
def osStdin : Nat := 0
/-- Handle standing in for the process's own `os.Stdout`. -/
def osStdout : Nat := 1
/-- Handle standing in for the process's own `os.Stderr`. -/
def osStderr : Nat := 2

/-- Oracle for the file-system calls made by `openRedirects`: `openFile p`
is the handle returned by `os.Open(p)` (`none` = error), `createFile p`
the handle returned by `os.Create(p)` (`none` = error, in which case the
returned `*os.File` is nil). -/
structure FSOracle where
  openFile : List Char → Option Nat
  createFile : List Char → Option Nat

/-- Modelled from the spec: `proc.Redirect` is not part of the excerpt;
§3 describes RedirectSpec as a discriminated union of HandleMode (three
borrowed handles, any may be absent) and PathMode (three paths, empty
meaning default), matching the source's uses of `redirects.Mode`,
`redirects.WriterFiles[i]` and `redirects.Paths[i]`. -/
inductive RedirectMode where
  | fileMode : RedirectMode
  | pathMode : RedirectMode
deriving DecidableEq

/-- Modelled from the spec (see `RedirectMode`): `WriterFiles[i]` becomes
`writerFile i` with `none` for a nil handle, `Paths[i]` becomes `path i`
with `[]` for the empty string. -/
structure Redirect where
  mode : RedirectMode
  writerFile0 : Option Nat
  writerFile1 : Option Nat
  writerFile2 : Option Nat
  path0 : List Char
  path1 : List Char
  path2 : List Char

/-- The five results of `openRedirects`, plus instrumentation: `closefn`
embeds the returned release function as the list of handles it would
close (`none` embeds the nil function returned on the error paths);
`opened` records every handle that `os.Open`/`os.Create` successfully
returned during the call (the call's side effect on the OS). -/
structure OpenRedirectsResult where
  stdin : Option Nat
  stdout : Option Nat
  stderr : Option Nat
  closefn : Option (List Nat)
  err : Bool
  opened : List Nat
deriving DecidableEq

/-- The `create` closure inside `openRedirects`: an empty path returns the
default handle without touching `toclose` or the error flag; otherwise
`os.Create` is attempted, a successful handle is appended to `toclose`,
and a failure leaves the file nil with the error flag set. -/
def createRedirect (fs : FSOracle) (path : List Char) (dflt : Nat) (toclose : List Nat) :
    Option Nat × List Nat × Bool :=
  if path = [] then (some dflt, toclose, false)
  else
    match fs.createFile path with
    | none => (none, toclose, true)
    | some h => (some h, toclose ++ [h], false)

/-- `openRedirects` from the source.  FileMode: the borrowed handles are
returned verbatim (nil stdin falls back to `os.Stdin`), nothing is opened.
PathMode: a non-empty stdin path is opened (failure returns the error with
a nil release); then stdout and stderr are created via `createRedirect`,
each failure returning the error with a nil release.  On success the
release closes exactly the tracked handles. -/
def openRedirects (fs : FSOracle) (redirects : Redirect) (quiet : Bool) : OpenRedirectsResult :=
  if redirects.mode = RedirectMode.fileMode then
    let stdin := match redirects.writerFile0 with
      | none => some osStdin
      | some f => some f
    { stdin := stdin, stdout := redirects.writerFile1, stderr := redirects.writerFile2,
      closefn := some [], err := false, opened := [] }
  else
    let stdinStep : Except Unit (Option Nat × List Nat) :=
      if redirects.path0 ≠ [] then
        match fs.openFile redirects.path0 with
        | none => Except.error ()
        | some h => Except.ok (some h, [h])
      else if quiet then Except.ok (some osStdin, [])
      else Except.ok (none, [])
    match stdinStep with
    | Except.error _ =>
      { stdin := none, stdout := none, stderr := none, closefn := none, err := true, opened := [] }
    | Except.ok (stdin, toclose) =>
      match createRedirect fs redirects.path1 osStdout toclose with
      | (_, tc, true) =>
        { stdin := none, stdout := none, stderr := none, closefn := none, err := true, opened := tc }
      | (stdout, toclose1, false) =>
        match createRedirect fs redirects.path2 osStderr toclose1 with
        | (_, tc, true) =>
          { stdin := none, stdout := none, stderr := none, closefn := none, err := true, opened := tc }
        | (stderr, toclose2, false) =>
          { stdin := stdin, stdout := stdout, stderr := stderr,
            closefn := some toclose2, err := false, opened := toclose2 }

/-! ## Availability preflight (`checkRRAvailable`) -/

/-- Oracle for the OS surface consulted by `checkRRAvailable`: whether
`exec.LookPath("rr")` succeeds, and the contents of
`/proc/sys/kernel/perf_event_paranoid` (`none` = read error / absent). -/
structure RRSystem where
  rrOnPath : Bool
  perfEventParanoidFile : Option (List Char)

/-- The result of `checkRRAvailable`: success, `ErrBackendUnavailable`,
or `ErrPerfEventParanoid` carrying the offending value. -/
inductive CheckResult where
  | ok : CheckResult
  | errBackendUnavailable : CheckResult
  | errPerfEventParanoid : Int → CheckResult
deriving DecidableEq

/-- `strings.TrimSpace` on ASCII content: drop whitespace from both ends. -/
def trimSpace (s : List Char) : List Char :=
  ((s.dropWhile (fun c => isSpaceChar c)).reverse.dropWhile (fun c => isSpaceChar c)).reverse

/-- The successful outcomes of `strconv.Atoi`: an optional sign followed
by a non-empty run of digits, and nothing else. -/
def atoiOpt (s : List Char) : Option Int :=
  match s with
  | [] => none
  | c :: rest =>
    let p : Bool × List Char :=
      if c = '-' then (true, rest) else if c = '+' then (false, rest) else (false, s)
    if p.2 = [] then none
    else if p.2.all (fun d => d.isDigit) then
      let n : Nat := p.2.foldl (fun acc d => acc * 10 + (d.toNat - 48)) 0
      some (if p.1 then -(n : Int) else (n : Int))
    else none

/-- `strconv.Atoi` as used in the source, where the error is discarded:
non-numeric content yields 0 (the 64-bit range clamp is not modelled;
the pseudo-file holds a small integer). -/
def atoi (s : List Char) : Int := (atoiOpt s).getD 0

/-- `checkRRAvailable` from the source: `rr` not on the path yields
`ErrBackendUnavailable`; otherwise an unreadable/absent pseudo-file is
permissive, and readable content whose trimmed `Atoi` value exceeds 1
yields `ErrPerfEventParanoid` with that value. -/
def checkRRAvailable (sys : RRSystem) : CheckResult :=
  if sys.rrOnPath = false then CheckResult.errBackendUnavailable
  else
    match sys.perfEventParanoidFile with
    | none => CheckResult.ok
    | some buf =>
      let perfEventParanoid := atoi (trimSpace buf)
      if perfEventParanoid > 1 then CheckResult.errPerfEventParanoid perfEventParanoid
      else CheckResult.ok

/-! ## Trace-directory cleanup (`safeRemoveAll`) -/

/-- One entry of `Readdir`: its name and whether it is a directory. -/
structure DirEntry where
  name : List Char
  isDir : Bool
deriving DecidableEq

/-- `filepath.Join(dir, name)` for the flat, already-clean paths used
here: dir ++ "/" ++ name. -/
def pathJoin (dir name : List Char) : List Char := dir ++ '/' :: name

/-- The world `safeRemoveAll` acts on: the directory path, whether
`os.Open(dir)` and `Readdir(-1)` succeed, the listed entries, and which
`os.Remove` calls succeed (`removeOk` on joined entry paths,
`removeDirOk` for the final removal of the directory itself). -/
structure DirWorld where
  dir : List Char
  openOk : Bool
  readdirOk : Bool
  entries : List DirEntry
  removeOk : List Char → Bool
  removeDirOk : Bool

/-- The observable outcome of `safeRemoveAll`: whether the directory
still exists and which of the listed entries remain inside it. -/
structure DirOutcome where
  dirExists : Bool
  remaining : List DirEntry
deriving DecidableEq

/-- The removal loop of `safeRemoveAll`: entries are removed in order;
the first failing `os.Remove` aborts the loop (the failing entry and
everything after it remain).  Returns the remaining entries and whether
the loop ran to completion. -/
def removeEntries (removeOk : List Char → Bool) (dir : List Char) :
    List DirEntry → List DirEntry × Bool
  | [] => ([], true)
  | e :: rest =>
    if removeOk (pathJoin dir e.name) then removeEntries removeOk dir rest
    else (e :: rest, false)

/-- `safeRemoveAll` from the source: failures of `os.Open`/`Readdir`
remove nothing; any directory entry removes nothing; otherwise the
entries are removed in order until a failure, and only after all entries
are gone is the directory itself removed (its own removal error being
ignored). -/
def safeRemoveAll (w : DirWorld) : DirOutcome :=
  if w.openOk = false then { dirExists := true, remaining := w.entries }
  else if w.readdirOk = false then { dirExists := true, remaining := w.entries }
  else if w.entries.any (fun e => e.isDir) then { dirExists := true, remaining := w.entries }
  else
    match removeEntries w.removeOk w.dir w.entries with
    | (rem, true) => { dirExists := !w.removeDirOk, remaining := rem }
    | (rem, false) => { dirExists := true, remaining := rem }

/-! ## The composite `RecordAndReplay` -/

/-- The arguments `Replay` is invoked with by `RecordAndReplay`. -/
structure ReplayArgs where
  tracedir : List Char
  quiet : Bool
  deleteOnDetach : Bool
  debugInfoDirs : List (List Char)
deriving DecidableEq

/-- The outcome of the `Record` step: the harvested trace directory
(possibly empty) and the propagated error (possibly nil), which are
independent. -/
structure RecordOutcome where
  tracedir : List Char
  err : Option Nat
deriving DecidableEq

/-- The result of `RecordAndReplay`, plus instrumentation: `replayCall`
records the arguments `Replay` was invoked with (`none` when it was never
invoked). -/
structure RnRResult where
  tgt : Option Nat
  tracedir : List Char
  err : Option Nat
  replayCall : Option ReplayArgs
deriving DecidableEq

/-- `RecordAndReplay` from the source: the `Record` outcome is `rec`;
`Replay` is the abstract function `replay`, returning (target, error).
An empty trace directory short-circuits with the recorder's error and no
replay; otherwise `Replay` runs with `deleteOnDetach = true` and its
result is returned alongside the trace directory. -/
def RecordAndReplay (rec : RecordOutcome) (replay : ReplayArgs → Option Nat × Option Nat)
    (quiet : Bool) (debugInfoDirs : List (List Char)) : RnRResult :=
  if rec.tracedir = [] then { tgt := none, tracedir := [], err := rec.err, replayCall := none }
  else
    let call : ReplayArgs :=
      { tracedir := rec.tracedir, quiet := quiet, deleteOnDetach := true,
        debugInfoDirs := debugInfoDirs }
    let r := replay call
    { tgt := r.1, tracedir := rec.tracedir, err := r.2, replayCall := some call }

/-! ## Schematic diagnostic lines -/

/-- A word that the tokenizer keeps as one unquoted field: non-empty, no
whitespace, no quote character. -/
def plainField (q : Char) (w : List Char) : Prop :=
  w ≠ [] ∧ ∀ c ∈ w, isSpaceChar c = false ∧ c ≠ q

instance (q : Char) (w : List Char) : Decidable (plainField q w) := by
  unfold plainField; infer_instance

/-- The diagnostic line of spec §8, with the executable-path field as a
parameter: two leading spaces, `gdb -ex`, the single-quoted
`target extended-remote 127.0.0.1:9999` span, `-l somefile`, then the
executable. -/
def gdbLineC4 (exe : List Char) : List Char :=
  "  gdb -ex ".data ++ rrQuote :: "target extended-remote 127.0.0.1:9999".data ++
    rrQuote :: ' ' :: "-l somefile ".data ++ exe

/-- A command line (already stripped of the `  gdb ` prefix) containing
two `-ex` flags whose single-quoted arguments both start with
`target extended-remote `, carrying ports `p1` and `p2`, followed by the
executable field. -/
def gdbLineTwoPorts (p1 p2 exe : List Char) : List Char :=
  "-ex ".data ++ rrQuote :: targetCmd ++ p1 ++
    rrQuote :: ' ' :: "-ex ".data ++ rrQuote :: targetCmd ++ p2 ++
    rrQuote :: ' ' :: exe

end RRBackend

namespace RRBackend

/-! ## Tokenizer lemmas -/

theorem splitQFAux_field_run (q : Char) (w : List Char) :
    ∀ (cs buf : List Char) (acc : List (List Char)),
      (∀ c ∈ w, isSpaceChar c = false ∧ c ≠ q) →
      splitQFAux q (w ++ cs) QState.inField buf acc =
        splitQFAux q cs QState.inField (buf ++ w) acc := by
  induction w with
  | nil => intro cs buf acc _; simp
  | cons c w ih =>
    intro cs buf acc h
    have hc := h c (List.mem_cons_self c w)
    have hrest : ∀ d ∈ w, isSpaceChar d = false ∧ d ≠ q := fun d hd => h d (List.mem_cons_of_mem c hd)
    show splitQFAux q (c :: (w ++ cs)) QState.inField buf acc = _
    rw [splitQFAux, if_neg hc.2, if_neg (by simp [hc.1]), ih cs (buf ++ [c]) acc hrest]
    simp

theorem splitQFAux_quote_run (q : Char) (w : List Char) :
    ∀ (cs buf : List Char) (acc : List (List Char)),
      (∀ c ∈ w, c ≠ q) →
      splitQFAux q (w ++ cs) QState.inQuote buf acc =
        splitQFAux q cs QState.inQuote (buf ++ w) acc := by
  induction w with
  | nil => intro cs buf acc _; simp
  | cons c w ih =>
    intro cs buf acc h
    have hc := h c (List.mem_cons_self c w)
    have hrest : ∀ d ∈ w, d ≠ q := fun d hd => h d (List.mem_cons_of_mem c hd)
    show splitQFAux q (c :: (w ++ cs)) QState.inQuote buf acc = _
    rw [splitQFAux, if_neg hc, ih cs (buf ++ [c]) acc hrest]
    simp

theorem splitQFAux_word_space (q : Char) (w : List Char) (sp : Char) (cs : List Char)
    (acc : List (List Char)) (hw : plainField q w)
    (hsp : isSpaceChar sp = true) (hspq : sp ≠ q) :
    splitQFAux q (w ++ sp :: cs) QState.inSpace [] acc =
      splitQFAux q cs QState.inSpace [] (acc ++ [w]) := by
  obtain ⟨hne, hall⟩ := hw
  match w, hne with
  | c :: w, _ =>
    have hc := hall c (List.mem_cons_self c w)
    have hrest : ∀ d ∈ w, isSpaceChar d = false ∧ d ≠ q :=
      fun d hd => hall d (List.mem_cons_of_mem c hd)
    show splitQFAux q (c :: (w ++ sp :: cs)) QState.inSpace [] acc = _
    rw [splitQFAux, if_neg hc.2, if_neg (by simp [hc.1]),
        splitQFAux_field_run q w (sp :: cs) ([] ++ [c]) acc hrest,
        splitQFAux, if_neg hspq, if_pos hsp]
    simp

theorem splitQFAux_quoted_space (q : Char) (body : List Char) (sp : Char) (cs : List Char)
    (acc : List (List Char)) (hbody : ∀ c ∈ body, c ≠ q)
    (hsp : isSpaceChar sp = true) (hspq : sp ≠ q) :
    splitQFAux q (q :: body ++ q :: sp :: cs) QState.inSpace [] acc =
      splitQFAux q cs QState.inSpace [] (acc ++ [body]) := by
  show splitQFAux q (q :: (body ++ q :: sp :: cs)) QState.inSpace [] acc = _
  rw [splitQFAux, if_pos rfl,
      splitQFAux_quote_run q body (q :: sp :: cs) [] acc hbody,
      splitQFAux, if_pos rfl, splitQFAux, if_neg hspq, if_pos hsp]
  simp

theorem splitQFAux_last_word (q : Char) (w : List Char) (acc : List (List Char))
    (hw : plainField q w) :
    splitQFAux q w QState.inSpace [] acc = acc ++ [w] := by
  obtain ⟨hne, hall⟩ := hw
  match w, hne with
  | c :: w, _ =>
    have hc := hall c (List.mem_cons_self c w)
    have hrest : ∀ d ∈ w, isSpaceChar d = false ∧ d ≠ q :=
      fun d hd => hall d (List.mem_cons_of_mem c hd)
    show splitQFAux q (c :: w) QState.inSpace [] acc = _
    have : c :: w = (c :: w) ++ [] := by simp
    rw [splitQFAux, if_neg hc.2, if_neg (by simp [hc.1])]
    have hw' : w = w ++ [] := by simp
    rw [hw', splitQFAux_field_run q w [] ([] ++ [c]) acc (by simpa using hrest)]
    simp [splitQFAux]

/-! ## Scan-loop lemmas -/

theorem isPrefixOf_append_self (l t : List Char) : l.isPrefixOf (l ++ t) = true := by
  simp [List.isPrefixOf_iff_prefix]

theorem rrScan_exEnd (port : List Char) :
    rrScan ["-ex".data] port = Except.error "-ex not followed by an argument".data := rfl

theorem rrScan_cons (f : List Char) (rest : List (List Char)) (port : List Char) :
    rrScan (f :: rest) port =
      if f = "-ex".data then
        match rest with
        | [] => Except.error "-ex not followed by an argument".data
        | arg :: rest2 =>
          if targetCmd.isPrefixOf arg then
            rrScan rest2 (arg.drop targetCmd.length)
          else
            rrScan (arg :: rest2) port
      else if f = "-l".data then
        match rest with
        | [] => Except.ok port
        | _ :: rest2 => rrScan rest2 port
      else rrScan rest port := by
  rw [rrScan.eq_def]

theorem rrScan_exMatch (arg : List Char) (rest : List (List Char)) (port : List Char)
    (h : targetCmd.isPrefixOf arg = true) :
    rrScan ("-ex".data :: arg :: rest) port = rrScan rest (arg.drop targetCmd.length) := by
  rw [rrScan_cons, if_pos rfl]
  simp only [h, if_pos]

theorem rrScan_exNoMatch (arg : List Char) (rest : List (List Char)) (port : List Char)
    (h : targetCmd.isPrefixOf arg = false) :
    rrScan ("-ex".data :: arg :: rest) port = rrScan (arg :: rest) port := by
  rw [rrScan_cons, if_pos rfl]
  simp only [h]
  rfl

theorem rrScan_lSkip (a : List Char) (rest : List (List Char)) (port : List Char) :
    rrScan ("-l".data :: a :: rest) port = rrScan rest port := by
  rw [rrScan_cons, if_neg (by decide), if_pos rfl]

theorem rrScan_other (f : List Char) (rest : List (List Char)) (port : List Char)
    (hex : f ≠ "-ex".data) (hl : f ≠ "-l".data) :
    rrScan (f :: rest) port = rrScan rest port := by
  rw [rrScan_cons, if_neg hex, if_neg hl]

theorem rrScan_single (w port : List Char) (h : w ≠ "-ex".data) :
    rrScan [w] port = Except.ok port := by
  by_cases hl : w = "-l".data
  · rw [rrScan_cons, if_neg h, if_pos hl]
  · rw [rrScan_other w [] port h hl]
    rfl

theorem rrScan_targetArg (p : List Char) (rest : List (List Char)) (port : List Char) :
    rrScan ("-ex".data :: (targetCmd ++ p) :: rest) port = rrScan rest p := by
  rw [rrScan_exMatch (targetCmd ++ p) rest port (isPrefixOf_append_self targetCmd p),
      List.drop_left]

theorem rrParseGdbCommand_of_scan (line : List Char) (p : List Char)
    (hscan : rrScan (splitQuotedFields line rrQuote) [] = Except.ok p) (hp : p ≠ []) :
    rrParseGdbCommand line =
      { port := p, exe := ((splitQuotedFields line rrQuote).getLast?).getD [], err := none } := by
  unfold rrParseGdbCommand
  dsimp only
  rw [hscan]
  simp [hp]

/-! ## Field lists of the schematic lines -/

theorem splitFields_gdbLineC4 (exe : List Char) (h : plainField rrQuote exe) :
    splitQuotedFields ((gdbLineC4 exe).drop rrGdbCommandPrefix.length) rrQuote =
      ["-ex".data, "target extended-remote 127.0.0.1:9999".data, "-l".data, "somefile".data, exe] := by
  have hdec : gdbLineC4 exe = rrGdbCommandPrefix ++
      ("-ex".data ++ ' ' :: (rrQuote :: "target extended-remote 127.0.0.1:9999".data ++
        rrQuote :: ' ' :: ("-l".data ++ ' ' :: ("somefile".data ++ ' ' :: exe)))) := by
    unfold gdbLineC4 rrGdbCommandPrefix
    have h1 : "  gdb -ex ".data = "  gdb ".data ++ ("-ex".data ++ [' ']) := by decide
    have h2 : "-l somefile ".data = "-l".data ++ ' ' :: ("somefile".data ++ [' ']) := by decide
    rw [h1, h2]
    simp
  rw [hdec, List.drop_left]
  unfold splitQuotedFields
  rw [splitQFAux_word_space rrQuote "-ex".data ' ' _ _ (by decide) (by decide) (by decide),
      splitQFAux_quoted_space rrQuote "target extended-remote 127.0.0.1:9999".data ' ' _ _
        (by decide) (by decide) (by decide),
      splitQFAux_word_space rrQuote "-l".data ' ' _ _ (by decide) (by decide) (by decide),
      splitQFAux_word_space rrQuote "somefile".data ' ' _ _ (by decide) (by decide) (by decide),
      splitQFAux_last_word rrQuote exe _ h]
  simp

theorem splitFields_gdbLineTwoPorts (p1 p2 exe : List Char)
    (hp1 : ∀ c ∈ p1, c ≠ rrQuote) (hp2 : ∀ c ∈ p2, c ≠ rrQuote)
    (h : plainField rrQuote exe) :
    splitQuotedFields (gdbLineTwoPorts p1 p2 exe) rrQuote =
      ["-ex".data, targetCmd ++ p1, "-ex".data, targetCmd ++ p2, exe] := by
  have hdec : gdbLineTwoPorts p1 p2 exe =
      "-ex".data ++ ' ' :: (rrQuote :: (targetCmd ++ p1) ++
        rrQuote :: ' ' :: ("-ex".data ++ ' ' :: (rrQuote :: (targetCmd ++ p2) ++
          rrQuote :: ' ' :: exe))) := by
    unfold gdbLineTwoPorts
    have h1 : "-ex ".data = "-ex".data ++ [' '] := by decide
    rw [h1]
    simp
  have htc : ∀ c ∈ targetCmd, c ≠ rrQuote := by decide
  have hb1 : ∀ c ∈ targetCmd ++ p1, c ≠ rrQuote := by
    intro c hc
    rcases List.mem_append.1 hc with hc | hc
    · exact htc c hc
    · exact hp1 c hc
  have hb2 : ∀ c ∈ targetCmd ++ p2, c ≠ rrQuote := by
    intro c hc
    rcases List.mem_append.1 hc with hc | hc
    · exact htc c hc
    · exact hp2 c hc
  rw [hdec]
  unfold splitQuotedFields
  rw [splitQFAux_word_space rrQuote "-ex".data ' ' _ _ (by decide) (by decide) (by decide),
      splitQFAux_quoted_space rrQuote (targetCmd ++ p1) ' ' _ _ hb1 (by decide) (by decide),
      splitQFAux_word_space rrQuote "-ex".data ' ' _ _ (by decide) (by decide) (by decide),
      splitQFAux_quoted_space rrQuote (targetCmd ++ p2) ' ' _ _ hb2 (by decide) (by decide),
      splitQFAux_last_word rrQuote exe _ h]
  simp

/-- Inversion for a successful parse: the port is non-empty, it is the
value the scan loop returned, and the executable is the last field. -/
theorem rrParse_success_inv (line : List Char) (h : (rrParseGdbCommand line).err = none) :
    (rrParseGdbCommand line).port ≠ []
    ∧ rrScan (splitQuotedFields line rrQuote) [] = Except.ok (rrParseGdbCommand line).port
    ∧ (rrParseGdbCommand line).exe = ((splitQuotedFields line rrQuote).getLast?).getD [] := by
  unfold rrParseGdbCommand at h ⊢
  dsimp only at h ⊢
  cases hscan : rrScan (splitQuotedFields line rrQuote) [] with
  | error r =>
    rw [hscan] at h
    simp at h
  | ok p =>
    rw [hscan] at h
    dsimp only at h ⊢
    by_cases hp : p = []
    · rw [if_pos hp] at h
      simp at h
    · rw [if_neg hp] at h
      refine ⟨?_, ?_, ?_⟩ <;> simp [if_neg hp, hp]

/-! ## Claim C2 -/

/-- C2 (amended): on field `-ex` the next field is required (its absence
is the malformed-handshake error); if the argument starts with
`target extended-remote ` the remainder becomes the port and the argument
is consumed (scan continues after it); a NON-matching argument is not
consumed — scanning resumes at the argument field itself, which can
therefore be re-examined as a flag field. -/
theorem c2_ex_flag_scan_step (arg : List Char) (rest : List (List Char)) (port : List Char) :
    rrScan ["-ex".data] port = Except.error "-ex not followed by an argument".data
    ∧ (targetCmd.isPrefixOf arg = true →
        rrScan ("-ex".data :: arg :: rest) port = rrScan rest (arg.drop targetCmd.length))
    ∧ (targetCmd.isPrefixOf arg = false →
        rrScan ("-ex".data :: arg :: rest) port = rrScan (arg :: rest) port) :=
  ⟨rrScan_exEnd port, rrScan_exMatch arg rest port, rrScan_exNoMatch arg rest port⟩

/-- C2 witness: on the non-matching argument `-ex`, scanning resumes at
that argument field itself. -/
theorem c2_ex_flag_scan_step_witness :
    targetCmd.isPrefixOf "-ex".data = false
    ∧ rrScan ["-ex".data, "-ex".data] [] = rrScan ["-ex".data] [] :=
  ⟨by decide, (c2_ex_flag_scan_step "-ex".data [] []).2.2 (by decide)⟩

/-- Concrete field list with a second `-ex` sitting in the argument
position of the first. -/
def fieldsDoubleEx : List (List Char) :=
  ["-ex".data, "-ex".data, "target extended-remote 1234".data, "exe".data]

/-- C2 counterexample: the claim says the `-ex` argument field is always
consumed, so a non-matching argument is never re-examined as a flag; under
that reading (`rrScanSpec`) the list `-ex -ex 'target extended-remote
1234' exe` has no port.  The code's scan loop does re-examine the second
`-ex` as a flag and returns port `1234`, and the full parser succeeds on
the corresponding line. -/
theorem c2_ex_flag_scan_step_counterexample :
    rrScan fieldsDoubleEx [] = Except.ok "1234".data
    ∧ rrScanSpec fieldsDoubleEx [] = Except.ok []
    ∧ rrParseGdbCommand
        ("-ex -ex ".data ++ rrQuote :: ("target extended-remote 1234".data ++ rrQuote :: " exe".data)) =
      { port := "1234".data, exe := "exe".data, err := none } :=
  ⟨by rfl, by rfl, by decide⟩

/-! ## Claim C4 -/

/-- C4 (amended): for every line
`  gdb -ex 'target extended-remote 127.0.0.1:9999' -l somefile <exe>` in
which the executable field is a plain field other than the flag `-ex`,
the stderr-line pipeline returns port `127.0.0.1:9999` and that
executable; and whenever a parse succeeds, the executable is
unconditionally the last field of the line. -/
theorem c4_gdb_line_parse (exe : List Char) (hfield : plainField rrQuote exe)
    (hexe : exe ≠ "-ex".data) :
    rrStderrParserStep (gdbLineC4 exe) =
      some { port := "127.0.0.1:9999".data, exe := exe, err := none }
    ∧ ∀ line : List Char, (rrParseGdbCommand line).err = none →
        (rrParseGdbCommand line).exe = ((splitQuotedFields line rrQuote).getLast?).getD [] := by
  constructor
  · have hpre : rrGdbCommandPrefix.isPrefixOf (gdbLineC4 exe) = true := by
      have h1 : gdbLineC4 exe = rrGdbCommandPrefix ++
          ("-ex ".data ++ rrQuote :: "target extended-remote 127.0.0.1:9999".data ++
            rrQuote :: ' ' :: "-l somefile ".data ++ exe) := by
        unfold gdbLineC4 rrGdbCommandPrefix
        have h2 : "  gdb -ex ".data = "  gdb ".data ++ "-ex ".data := by decide
        rw [h2]
        simp
      rw [h1]
      exact isPrefixOf_append_self _ _
    unfold rrStderrParserStep
    rw [if_pos hpre]
    have hfields := splitFields_gdbLineC4 exe hfield
    have hscan : rrScan
        (splitQuotedFields ((gdbLineC4 exe).drop rrGdbCommandPrefix.length) rrQuote) [] =
        Except.ok "127.0.0.1:9999".data := by
      rw [hfields]
      have htc : ("target extended-remote 127.0.0.1:9999".data : List Char) =
          targetCmd ++ "127.0.0.1:9999".data := by decide
      rw [htc, rrScan_targetArg, rrScan_lSkip, rrScan_single exe _ hexe]
    rw [rrParseGdbCommand_of_scan _ _ hscan (by decide), hfields]
    have hlast : (["-ex".data, "target extended-remote 127.0.0.1:9999".data, "-l".data,
        "somefile".data, exe] : List (List Char)).getLast? = some exe := by
      have h5 : (["-ex".data, "target extended-remote 127.0.0.1:9999".data, "-l".data,
          "somefile".data, exe] : List (List Char)) =
          ["-ex".data, "target extended-remote 127.0.0.1:9999".data, "-l".data,
            "somefile".data] ++ [exe] := by simp
      rw [h5, List.getLast?_concat]
    rw [hlast]
    rfl
  · intro line h
    exact (rrParse_success_inv line h).2.2

/-- C4 witness: the schematic line with executable `/bin/cat`. -/
theorem c4_gdb_line_parse_witness :
    plainField rrQuote "/bin/cat".data ∧ "/bin/cat".data ≠ "-ex".data
    ∧ rrStderrParserStep (gdbLineC4 "/bin/cat".data) =
        some { port := "127.0.0.1:9999".data, exe := "/bin/cat".data, err := none } :=
  ⟨by decide, by decide, (c4_gdb_line_parse "/bin/cat".data (by decide) (by decide)).1⟩

/-- C4 counterexample: with the executable field literally `-ex` (a legal
file name), a line exactly of the claimed form makes the parser return a
malformed-handshake error instead of port `127.0.0.1:9999` and that
executable. -/
theorem c4_gdb_line_parse_counterexample :
    rrStderrParserStep (gdbLineC4 "-ex".data) =
      some { port := [], exe := [],
             err := some { line := (gdbLineC4 "-ex".data).drop rrGdbCommandPrefix.length,
                           reason := "-ex not followed by an argument".data } }
    ∧ rrStderrParserStep (gdbLineC4 "-ex".data) ≠
        some { port := "127.0.0.1:9999".data, exe := "-ex".data, err := none } :=
  ⟨by decide, by decide⟩

/-! ## Claim C5 -/

/-- C5: whenever the parser returns a malformed-handshake error, the
stored raw line is exactly the parser's input; and when the scan loop
completes without finding a port, the stored reason is
`could not find -ex argument`. -/
theorem c5_malformed_line_stored_exact (line : List Char) :
    (∀ e, (rrParseGdbCommand line).err = some e → e.line = line)
    ∧ (rrScan (splitQuotedFields line rrQuote) [] = Except.ok [] →
        (rrParseGdbCommand line).err =
          some { line := line, reason := "could not find -ex argument".data }) := by
  constructor
  · intro e he
    unfold rrParseGdbCommand at he
    dsimp only at he
    cases hscan : rrScan (splitQuotedFields line rrQuote) [] with
    | error r =>
      rw [hscan] at he
      dsimp only at he
      have h2 := Option.some.inj he
      rw [← h2]
    | ok p =>
      rw [hscan] at he
      dsimp only at he
      by_cases hp : p = []
      · rw [if_pos hp] at he
        dsimp only at he
        have h2 := Option.some.inj he
        rw [← h2]
      · rw [if_neg hp] at he
        simp at he
  · intro hs
    unfold rrParseGdbCommand
    dsimp only
    rw [hs]
    rfl

/-- C5 witness: a line with no `-ex` flag at all. -/
theorem c5_malformed_line_stored_exact_witness :
    rrScan (splitQuotedFields "noflags".data rrQuote) [] = Except.ok []
    ∧ (rrParseGdbCommand "noflags".data).err =
        some { line := "noflags".data, reason := "could not find -ex argument".data } :=
  ⟨by rfl, (c5_malformed_line_stored_exact "noflags".data).2 (by rfl)⟩

/-! ## Claim C9 -/

/-- C9: on a line containing two `-ex` flags whose quoted arguments both
start with `target extended-remote `, the parser returns the port taken
from the LAST such flag (later matches overwrite earlier ones), and the
executable is the last field of the whole line. -/
theorem c9_last_target_match_wins (p1 p2 exe : List Char)
    (hp1 : ∀ c ∈ p1, c ≠ rrQuote) (hp2 : ∀ c ∈ p2, c ≠ rrQuote) (hp2ne : p2 ≠ [])
    (hfield : plainField rrQuote exe) (hexe : exe ≠ "-ex".data) :
    rrParseGdbCommand (gdbLineTwoPorts p1 p2 exe) = { port := p2, exe := exe, err := none } := by
  have hfields := splitFields_gdbLineTwoPorts p1 p2 exe hp1 hp2 hfield
  have hscan : rrScan (splitQuotedFields (gdbLineTwoPorts p1 p2 exe) rrQuote) [] =
      Except.ok p2 := by
    rw [hfields, rrScan_targetArg, rrScan_targetArg, rrScan_single exe p2 hexe]
  rw [rrParseGdbCommand_of_scan _ _ hscan hp2ne, hfields]
  have hlast : (["-ex".data, targetCmd ++ p1, "-ex".data, targetCmd ++ p2, exe] :
      List (List Char)).getLast? = some exe := by
    have h5 : (["-ex".data, targetCmd ++ p1, "-ex".data, targetCmd ++ p2, exe] :
        List (List Char)) =
        ["-ex".data, targetCmd ++ p1, "-ex".data, targetCmd ++ p2] ++ [exe] := by simp
    rw [h5, List.getLast?_concat]
  rw [hlast]
  rfl

/-- C9 witness: ports `1:2` then `3:4`; the parser returns `3:4`. -/
theorem c9_last_target_match_wins_witness :
    rrParseGdbCommand (gdbLineTwoPorts "1:2".data "3:4".data "prog".data) =
      { port := "3:4".data, exe := "prog".data, err := none } :=
  c9_last_target_match_wins "1:2".data "3:4".data "prog".data
    (by decide) (by decide) (by decide) (by decide) (by decide)

/-! ## Claim C10 -/

/-- C10: the parser's access to the last field is in bounds — whenever
the parse succeeds (a non-empty port was found), the field list is
non-empty, its last element exists and is the returned executable; an
empty or port-free field list takes the error branch instead. -/
theorem c10_exe_access_in_bounds (line : List Char)
    (h : (rrParseGdbCommand line).err = none) :
    splitQuotedFields line rrQuote ≠ []
    ∧ ∃ e, (splitQuotedFields line rrQuote).getLast? = some e
        ∧ (rrParseGdbCommand line).exe = e := by
  obtain ⟨hp, hscan, hexe⟩ := rrParse_success_inv line h
  have hne : splitQuotedFields line rrQuote ≠ [] := by
    intro hnil
    rw [hnil] at hscan
    have h0 : Except.ok ([] : List Char) = Except.ok (rrParseGdbCommand line).port := hscan
    exact hp (Except.ok.inj h0).symm
  refine ⟨hne, ?_⟩
  cases hL : (splitQuotedFields line rrQuote).getLast? with
  | none => exact absurd (List.getLast?_eq_none_iff.1 hL) hne
  | some e =>
    refine ⟨e, rfl, ?_⟩
    rw [hexe, hL]
    rfl

/-- Concrete successfully-parsed line (one quoted target argument). -/
def lineOnePort : List Char :=
  "-ex ".data ++ rrQuote :: ("target extended-remote 1:2".data ++ rrQuote :: " prog".data)

/-- C10 witness: a concrete successful parse. -/
theorem c10_exe_access_in_bounds_witness :
    (rrParseGdbCommand lineOnePort).err = none
    ∧ (splitQuotedFields lineOnePort rrQuote ≠ []
       ∧ ∃ e, (splitQuotedFields lineOnePort rrQuote).getLast? = some e
           ∧ (rrParseGdbCommand lineOnePort).exe = e) :=
  ⟨by decide, c10_exe_access_in_bounds lineOnePort (by decide)⟩

/-! ## Claim C1 -/

/-- C1 (amended): in PathMode, any open/create failure makes
`openRedirects` return an error together with a NIL release function —
handles already opened before the failure are not closed by the call (they
are leaked, not released); when the failure is the stdin open itself,
zero handles had been opened.  On success the returned release closes
exactly the handles that were opened. -/
theorem c1_openRedirects_release (fs : FSOracle) (redirects : Redirect) (quiet : Bool)
    (hmode : redirects.mode = RedirectMode.pathMode) :
    ((openRedirects fs redirects quiet).err = true →
        (openRedirects fs redirects quiet).closefn = none)
    ∧ (redirects.path0 ≠ [] → fs.openFile redirects.path0 = none →
        openRedirects fs redirects quiet =
          { stdin := none, stdout := none, stderr := none, closefn := none,
            err := true, opened := [] })
    ∧ ((openRedirects fs redirects quiet).err = false →
        (openRedirects fs redirects quiet).closefn =
          some (openRedirects fs redirects quiet).opened) := by
  have hni : ¬ redirects.mode = RedirectMode.fileMode := by
    rw [hmode]
    decide
  refine ⟨?_, ?_, ?_⟩
  · unfold openRedirects
    rw [if_neg hni]
    dsimp only
    cases hs : (if redirects.path0 ≠ [] then
        match fs.openFile redirects.path0 with
        | none => Except.error ()
        | some h => Except.ok (some h, [h])
      else if quiet then Except.ok (some osStdin, ([] : List Nat))
      else Except.ok (none, ([] : List Nat))) with
    | error u => intro _; rfl
    | ok pair =>
      rcases h1 : createRedirect fs redirects.path1 osStdout pair.2 with ⟨stdout1, tc1, flag1⟩
      dsimp only
      rw [h1]
      cases flag1 with
      | true => intro _; rfl
      | false =>
        dsimp only
        rcases h2 : createRedirect fs redirects.path2 osStderr tc1 with ⟨stderr1, tc2, flag2⟩
        cases flag2 with
        | true => intro _; rfl
        | false => intro hcon; simp at hcon
  · intro hp0 hopen
    unfold openRedirects
    rw [if_neg hni]
    dsimp only
    rw [if_pos hp0, hopen]
  · unfold openRedirects
    rw [if_neg hni]
    dsimp only
    cases hs : (if redirects.path0 ≠ [] then
        match fs.openFile redirects.path0 with
        | none => Except.error ()
        | some h => Except.ok (some h, [h])
      else if quiet then Except.ok (some osStdin, ([] : List Nat))
      else Except.ok (none, ([] : List Nat))) with
    | error u => intro hcon; simp at hcon
    | ok pair =>
      rcases h1 : createRedirect fs redirects.path1 osStdout pair.2 with ⟨stdout1, tc1, flag1⟩
      dsimp only
      rw [h1]
      cases flag1 with
      | true => intro hcon; simp at hcon
      | false =>
        dsimp only
        rcases h2 : createRedirect fs redirects.path2 osStderr tc1 with ⟨stderr1, tc2, flag2⟩
        cases flag2 with
        | true => intro hcon; simp at hcon
        | false => intro _; rfl

/-- File-system oracle where opening `in` succeeds with handle 7 and
every create fails. -/
def fsLeakDemo : FSOracle :=
  { openFile := fun p => if p = "in".data then some 7 else none,
    createFile := fun _ => none }

/-- PathMode redirect spec with stdin path `in` and stdout path `out`. -/
def redirectLeakDemo : Redirect :=
  { mode := RedirectMode.pathMode,
    writerFile0 := none, writerFile1 := none, writerFile2 := none,
    path0 := "in".data, path1 := "out".data, path2 := [] }

/-- C1 counterexample: the stdin path opens (handle 7) and the stdout
create then fails; `openRedirects` returns the error, but handle 7 was
opened and the returned release is nil — no release that closes the
already-opened handle is returned, so the descriptor leaks, contradicting
the claim that the returned release closes every handle opened before the
failure point. -/
theorem c1_openRedirects_release_counterexample :
    (openRedirects fsLeakDemo redirectLeakDemo false).err = true
    ∧ (openRedirects fsLeakDemo redirectLeakDemo false).opened = [7]
    ∧ (openRedirects fsLeakDemo redirectLeakDemo false).closefn = none :=
  ⟨by decide, by decide, by decide⟩

/-- C1 witness: with an unreadable stdin path (path `absent`), the call
fails having opened nothing, and the release returned is nil. -/
theorem c1_openRedirects_release_witness :
    ({ mode := RedirectMode.pathMode,
       writerFile0 := none, writerFile1 := none, writerFile2 := none,
       path0 := "absent".data, path1 := [], path2 := [] } : Redirect).mode =
        RedirectMode.pathMode
    ∧ "absent".data ≠ ([] : List Char)
    ∧ openRedirects fsLeakDemo
        { mode := RedirectMode.pathMode,
          writerFile0 := none, writerFile1 := none, writerFile2 := none,
          path0 := "absent".data, path1 := [], path2 := [] } false =
        { stdin := none, stdout := none, stderr := none, closefn := none,
          err := true, opened := [] } :=
  ⟨by decide, by decide,
    (c1_openRedirects_release fsLeakDemo
        { mode := RedirectMode.pathMode,
          writerFile0 := none, writerFile1 := none, writerFile2 := none,
          path0 := "absent".data, path1 := [], path2 := [] } false rfl).2.1
      (by decide) (by decide)⟩

/-! ## Claim C3 -/

theorem removeEntries_suffix (ok : List Char → Bool) (dir : List Char) (l : List DirEntry) :
    (removeEntries ok dir l).1 <:+ l := by
  induction l with
  | nil => exact List.suffix_rfl
  | cons e rest ih =>
    unfold removeEntries
    by_cases h : ok (pathJoin dir e.name)
    · rw [if_pos h]
      exact ih.trans (List.suffix_cons e rest)
    · rw [if_neg h]

theorem removeEntries_all_ok (ok : List Char → Bool) (dir : List Char) (l : List DirEntry)
    (h : ∀ e ∈ l, ok (pathJoin dir e.name) = true) :
    removeEntries ok dir l = ([], true) := by
  induction l with
  | nil => rfl
  | cons e rest ih =>
    unfold removeEntries
    rw [if_pos (h e (List.mem_cons_self e rest))]
    exact ih fun d hd => h d (List.mem_cons_of_mem e hd)

/-- C3 (amended): a directory containing any subdirectory entry is left
fully intact; a directory of regular files whose removals (including the
directory's own) all succeed is removed entirely; in general the loop
removes a prefix of the listing and stops at the first failing removal, so
the remaining entries are always a suffix of the original listing. -/
theorem c3_safeRemoveAll_behavior (w : DirWorld) :
    ((∃ e ∈ w.entries, e.isDir = true) →
        safeRemoveAll w = { dirExists := true, remaining := w.entries })
    ∧ (w.openOk = true → w.readdirOk = true → (∀ e ∈ w.entries, e.isDir = false) →
        (∀ e ∈ w.entries, w.removeOk (pathJoin w.dir e.name) = true) → w.removeDirOk = true →
        safeRemoveAll w = { dirExists := false, remaining := [] })
    ∧ (safeRemoveAll w).remaining <:+ w.entries := by
  refine ⟨?_, ?_, ?_⟩
  · rintro ⟨e, he, hdir⟩
    unfold safeRemoveAll
    by_cases ho : w.openOk = false
    · rw [if_pos ho]
    · rw [if_neg ho]
      by_cases hr : w.readdirOk = false
      · rw [if_pos hr]
      · rw [if_neg hr]
        have hany : w.entries.any (fun e => e.isDir) = true :=
          List.any_eq_true.2 ⟨e, he, hdir⟩
        rw [if_pos hany]
  · intro ho hr hnd hok hd
    unfold safeRemoveAll
    rw [if_neg (by simp [ho]), if_neg (by simp [hr])]
    have hany : ¬ w.entries.any (fun e => e.isDir) = true := by
      intro hcon
      obtain ⟨e, he, hdir⟩ := List.any_eq_true.1 hcon
      rw [hnd e he] at hdir
      cases hdir
    rw [if_neg hany, removeEntries_all_ok w.removeOk w.dir w.entries hok]
    rw [hd]
    rfl
  · unfold safeRemoveAll
    by_cases ho : w.openOk = false
    · rw [if_pos ho]
    · rw [if_neg ho]
      by_cases hr : w.readdirOk = false
      · rw [if_pos hr]
      · rw [if_neg hr]
        by_cases hany : w.entries.any (fun e => e.isDir) = true
        · rw [if_pos hany]
        · rw [if_neg hany]
          rcases hre : removeEntries w.removeOk w.dir w.entries with ⟨rem, flag⟩
          have hsuf := removeEntries_suffix w.removeOk w.dir w.entries
          rw [hre] at hsuf
          cases flag with
          | true => exact hsuf
          | false => exact hsuf

/-- Directory world where removing entry `a` succeeds and removing entry
`b` fails. -/
def dirWorldPartial : DirWorld :=
  { dir := "d".data, openOk := true, readdirOk := true,
    entries := [{ name := "a".data, isDir := false }, { name := "b".data, isDir := false }],
    removeOk := fun p => p == pathJoin "d".data "a".data,
    removeDirOk := true }

/-- C3 counterexample: with two regular files `a` and `b` where removing
`b` fails, `safeRemoveAll` removes `a` and then stops — afterwards `b`
and the directory still exist.  The outcome is neither "everything
removed" nor "nothing removed", refuting both the all-or-nothing claim
and the unconditional "removes every file and the directory" claim. -/
theorem c3_safeRemoveAll_counterexample :
    safeRemoveAll dirWorldPartial =
      { dirExists := true, remaining := [{ name := "b".data, isDir := false }] }
    ∧ ¬ (safeRemoveAll dirWorldPartial).remaining = dirWorldPartial.entries
    ∧ ¬ ((safeRemoveAll dirWorldPartial).remaining = []
          ∧ (safeRemoveAll dirWorldPartial).dirExists = false) :=
  ⟨by decide, by decide, by decide⟩

/-- Directory world containing a subdirectory entry. -/
def dirWorldWithSub : DirWorld :=
  { dir := "d".data, openOk := true, readdirOk := true,
    entries := [{ name := "sub".data, isDir := true }, { name := "f".data, isDir := false }],
    removeOk := fun _ => true,
    removeDirOk := true }

/-- C3 witness: a directory with a subdirectory entry is left intact. -/
theorem c3_safeRemoveAll_behavior_witness :
    (∃ e ∈ dirWorldWithSub.entries, e.isDir = true)
    ∧ safeRemoveAll dirWorldWithSub =
        { dirExists := true, remaining := dirWorldWithSub.entries } :=
  ⟨by decide, (c3_safeRemoveAll_behavior dirWorldWithSub).1 (by decide)⟩

/-! ## Claim C6 -/

/-- C6: `RecordAndReplay` short-circuits with the recorder's error and
without invoking `Replay` exactly when the trace directory is empty; on a
non-empty trace directory it invokes `Replay` with `deleteOnDetach =
true`, returns `Replay`'s target and error alongside the trace directory,
and the recorder's own run error is discarded (the result is the same for
every recorder error value). -/
theorem c6_recordAndReplay (rec : RecordOutcome) (replay : ReplayArgs → Option Nat × Option Nat)
    (quiet : Bool) (dirs : List (List Char)) :
    (rec.tracedir = [] →
        RecordAndReplay rec replay quiet dirs =
          { tgt := none, tracedir := [], err := rec.err, replayCall := none })
    ∧ (rec.tracedir ≠ [] →
        RecordAndReplay rec replay quiet dirs =
          { tgt := (replay { tracedir := rec.tracedir, quiet := quiet, deleteOnDetach := true,
                             debugInfoDirs := dirs }).1,
            tracedir := rec.tracedir,
            err := (replay { tracedir := rec.tracedir, quiet := quiet, deleteOnDetach := true,
                             debugInfoDirs := dirs }).2,
            replayCall := some { tracedir := rec.tracedir, quiet := quiet,
                                 deleteOnDetach := true, debugInfoDirs := dirs } }
        ∧ ∀ e : Option Nat,
            RecordAndReplay { tracedir := rec.tracedir, err := e } replay quiet dirs =
              RecordAndReplay rec replay quiet dirs) := by
  constructor
  · intro h
    unfold RecordAndReplay
    rw [if_pos h]
  · intro h
    constructor
    · unfold RecordAndReplay
      rw [if_neg h]
    · intro e
      unfold RecordAndReplay
      dsimp only
      rw [if_neg h, if_neg h]

/-- C6 witness: an empty trace directory returns the recorder's error
without invoking replay. -/
theorem c6_recordAndReplay_witness :
    (({ tracedir := [], err := some 5 } : RecordOutcome).tracedir = ([] : List Char))
    ∧ RecordAndReplay { tracedir := [], err := some 5 } (fun _ => (some 1, none)) false [] =
        { tgt := none, tracedir := [], err := some 5, replayCall := none } :=
  ⟨rfl, (c6_recordAndReplay { tracedir := [], err := some 5 }
      (fun _ => (some 1, none)) false []).1 rfl⟩

/-! ## Claim C7 -/

/-- C7: `checkRRAvailable` yields `ErrBackendUnavailable` exactly when
`rr` is not on the search path; with `rr` present it yields
`ErrPerfEventParanoid n` exactly when the pseudo-file is readable and its
trimmed content parses to an integer `n > 1` (carrying that parsed
value), and succeeds when the pseudo-file is unreadable or absent. -/
theorem c7_checkRRAvailable (sys : RRSystem) :
    (checkRRAvailable sys = CheckResult.errBackendUnavailable ↔ sys.rrOnPath = false)
    ∧ (∀ n : Int, checkRRAvailable sys = CheckResult.errPerfEventParanoid n ↔
        (sys.rrOnPath = true ∧ ∃ buf, sys.perfEventParanoidFile = some buf
          ∧ atoiOpt (trimSpace buf) = some n ∧ n > 1))
    ∧ (sys.rrOnPath = true → sys.perfEventParanoidFile = none →
        checkRRAvailable sys = CheckResult.ok) := by
  rcases sys with ⟨rp, pf⟩
  unfold checkRRAvailable
  dsimp only
  cases rp with
  | false => simp
  | true =>
    rw [if_neg (by decide)]
    cases pf with
    | none => simp
    | some buf =>
      dsimp only
      by_cases hgt : atoi (trimSpace buf) > 1
      · rw [if_pos hgt]
        refine ⟨by simp, ?_, by simp⟩
        intro n
        constructor
        · intro h
          have hn : atoi (trimSpace buf) = n := CheckResult.errPerfEventParanoid.inj h
          refine ⟨rfl, buf, rfl, ?_, ?_⟩
          · cases hao : atoiOpt (trimSpace buf) with
            | none =>
              exfalso
              unfold atoi at hgt
              rw [hao] at hgt
              norm_num at hgt
            | some m =>
              unfold atoi at hn
              rw [hao] at hn
              dsimp at hn
              rw [hn]
          · rw [← hn]
            exact hgt
        · rintro ⟨-, buf2, hbuf2, hao, hn1⟩
          have hb := Option.some.inj hbuf2
          rw [← hb] at hao
          have hn : atoi (trimSpace buf) = n := by
            unfold atoi
            rw [hao]
            rfl
          rw [hn]
      · rw [if_neg hgt]
        refine ⟨by simp, ?_, by simp⟩
        intro n
        constructor
        · intro h
          exact absurd h (by simp)
        · rintro ⟨-, buf2, hbuf2, hao, hn1⟩
          exfalso
          have hb := Option.some.inj hbuf2
          rw [← hb] at hao
          apply hgt
          unfold atoi
          rw [hao]
          exact hn1

/-- C7 witness: `rr` present and pseudo-file content ` 3 `: the trimmed
content parses to 3 > 1 and the check reports level 3. -/
theorem c7_checkRRAvailable_witness :
    checkRRAvailable { rrOnPath := true, perfEventParanoidFile := some " 3 ".data } =
      CheckResult.errPerfEventParanoid 3 :=
  ((c7_checkRRAvailable { rrOnPath := true, perfEventParanoidFile := some " 3 ".data }).2.1 3).2
    ⟨rfl, " 3 ".data, rfl, by decide, by decide⟩

end RRBackend
